import Mathlib

/-!
Shallow embedding of the caspaxos membership-reconfiguration and
garbage-collection code (src/cluster/advertise.go, which concatenates the
advertise-IP helpers of package cluster and the protocol package holding
GrowCluster, ShrinkCluster, GarbageCollect and the gc broadcast helpers).

Proposers and acceptors are identified by natural numbers.  Network calls
are modelled by oracles (failure schedules) passed to the procedures; a
procedure result records the returned error (or panic, for Go runtime
panics such as rand.Intn(0)), the final proposer states, and the trace of
calls the procedure made, in order.
-/

namespace CasPaxos

/-- Error values the embedded protocol code produces or propagates.
`wrap` models pkg/errors.Wrap applied to a non-nil error. -/
inductive Err where
  | transport
  | configMismatch
  | notEmpty
  | canceled
  | deadline
  | wrap (msg : String) (e : Err)
deriving DecidableEq

/-- One proposer- or acceptor-directed call made by the protocol code.
Events with the Ev suffix are forward calls; the undo variants are the
compensating calls played from the undo stack. -/
inductive Ev where
  | addAccepterEv (p : Nat)
  | addPreparerEv (p : Nat)
  | removePreparerEv (p : Nat)
  | removeAccepterEv (p : Nat)
  | proposeIdentityEv (p : Nat) (key : String)
  | undoRemoveAccepter (p : Nat)
  | undoRemovePreparer (p : Nat)
  | undoAddAccepter (p : Nat)
  | undoAddPreparer (p : Nat)
  | fullIdentityReadEv (p : Nat) (key : String)
  | fastForwardEv (p : Nat) (c : Nat)
  | removeIfEmptyEv (a : Nat) (key : String)
  | backoffEv
deriving DecidableEq

/-- True for the compensating (undo-stack) calls. -/
def isUndoEv : Ev → Bool
  | .undoRemoveAccepter _ => true
  | .undoRemovePreparer _ => true
  | .undoAddAccepter _ => true
  | .undoAddPreparer _ => true
  | _ => false

/-- True for any call that removes a registration (forward or undo). -/
def isRemoveCallEv : Ev → Bool
  | .removePreparerEv _ => true
  | .removeAccepterEv _ => true
  | .undoRemoveAccepter _ => true
  | .undoRemovePreparer _ => true
  | _ => false

/-- Modelled from the spec: the concrete in-memory Proposer used by the
tests is not under src/ (only the Proposer interface is); per the spec a
proposer's configuration is the pair of acceptor sets PrepareSet and
AcceptSet.  Acceptors are identified by naturals. -/
structure PState where
  prepareSet : List Nat
  acceptSet : List Nat
deriving DecidableEq

/-- Modelled from the spec: AddAccepter on the in-memory fake fails with a
ConfigMismatch (already-present) error when the target is already in the
AcceptSet, otherwise registers it. -/
def addAccepterF (t : Nat) (s : PState) : Except Err PState :=
  if t ∈ s.acceptSet then .error .configMismatch
  else .ok { s with acceptSet := t :: s.acceptSet }

/-- Modelled from the spec: AddPreparer, as `addAccepterF` for the PrepareSet. -/
def addPreparerF (t : Nat) (s : PState) : Except Err PState :=
  if t ∈ s.prepareSet then .error .configMismatch
  else .ok { s with prepareSet := t :: s.prepareSet }

/-- Modelled from the spec: RemovePreparer fails with a ConfigMismatch
(not-present) error when the target is not registered, otherwise erases it. -/
def removePreparerF (t : Nat) (s : PState) : Except Err PState :=
  if t ∈ s.prepareSet then .ok { s with prepareSet := s.prepareSet.erase t }
  else .error .configMismatch

/-- Modelled from the spec: RemoveAccepter, as `removePreparerF` for the AcceptSet. -/
def removeAccepterF (t : Nat) (s : PState) : Except Err PState :=
  if t ∈ s.acceptSet then .ok { s with acceptSet := s.acceptSet.erase t }
  else .error .configMismatch

/-- An entry of the undo stack: which compensating call to make, on which
proposer, for which target acceptor.  Mirrors the closures GrowCluster and
ShrinkCluster append to their `undo` slices. -/
inductive UndoA where
  | remAcc (i t : Nat)
  | remPrep (i t : Nat)
  | addAcc (i t : Nat)
  | addPrep (i t : Nat)
deriving DecidableEq

/-- Apply a state-updating function to the element at an index. -/
def modifyAt (f : PState → PState) : Nat → List PState → List PState
  | _, [] => []
  | 0, s :: ss => f s :: ss
  | n+1, s :: ss => s :: modifyAt f n ss

/-- Run one undo entry against the proposer states.  Undo calls ignore
errors (best effort), and a ConfigMismatch reply leaves the state
unchanged, so the net effect on the fake is: removes erase, adds insert
only when absent. -/
def applyOne : UndoA → List PState → List PState
  | .remAcc i t, ss => modifyAt (fun s => { s with acceptSet := s.acceptSet.erase t }) i ss
  | .remPrep i t, ss => modifyAt (fun s => { s with prepareSet := s.prepareSet.erase t }) i ss
  | .addAcc i t, ss =>
      modifyAt (fun s => if t ∈ s.acceptSet then s else { s with acceptSet := t :: s.acceptSet }) i ss
  | .addPrep i t, ss =>
      modifyAt (fun s => if t ∈ s.prepareSet then s else { s with prepareSet := t :: s.prepareSet }) i ss

/-- Play an undo stack, most recently pushed entry first, exactly as the
deferred loop in GrowCluster/ShrinkCluster plays its `undo` slice in
reverse append order. -/
def applyUndo : List UndoA → List PState → List PState
  | [], ss => ss
  | u :: us, ss => applyUndo us (applyOne u ss)

/-- The trace event of one undo entry. -/
def undoEv : UndoA → Ev
  | .remAcc i _ => .undoRemoveAccepter i
  | .remPrep i _ => .undoRemovePreparer i
  | .addAcc i _ => .undoAddAccepter i
  | .addPrep i _ => .undoAddPreparer i

/-- One for-each-proposer phase of GrowCluster/ShrinkCluster: walk the
proposers in order, applying `op` (the configuration call, including any
injected failure) to each; every success pushes `mkU` onto the undo stack;
the first error stops the walk.  `done` holds already-processed proposers
in reverse; `i` is the index of the head of `todo`; every attempted call
appends its `mkE` event to the trace. -/
def phase (op : Nat → PState → Except Err PState) (mkU : Nat → UndoA) (mkE : Nat → Ev) :
    Nat → List PState → List PState → List UndoA → List Ev →
    List PState × List UndoA × List Ev × Option Err
  | _, done, [], undo, tr => (done.reverse, undo, tr, none)
  | i, done, s :: todo, undo, tr =>
    match op i s with
    | .error e => (done.reverse ++ s :: todo, undo, tr ++ [mkE i], some e)
    | .ok s2 => phase op mkU mkE (i+1) (s2 :: done) todo (mkU i :: undo) (tr ++ [mkE i])

/-- The per-proposer result of a phase in which every call succeeded:
element `k` is the state `op (i+k)` produced (or unchanged on error). -/
def applyOp (op : Nat → PState → Except Err PState) : Nat → List PState → List PState
  | _, [] => []
  | i, s :: rest => (match op i s with | .ok s2 => s2 | .error _ => s) :: applyOp op (i+1) rest

/-- An injected failure schedule for one Grow/Shrink call: whether the
configuration call on proposer `i` in the first (per-proposer) step or the
last (per-proposer) step fails in transport, whether the identity Propose
fails, and the value the `rand.Intn` oracle would produce. -/
structure Sched where
  f1 : Nat → Bool
  fProp : Bool
  f3 : Nat → Bool
  r : Nat

/-- Outcome of a procedure call: a normal nil return, a normal error
return, a Go runtime panic, or (for the garbage-collection loop only)
exhaustion of the step budget of the model. -/
inductive Out where
  | ok
  | err (e : Err)
  | panic
  | outOfFuel
deriving DecidableEq

/-- The reserved empty key used for configuration-change identity reads. -/
def zerokey : String := ""

/-- The identity change function proposed by the forced reads of
GrowCluster, ShrinkCluster and the gc identity broadcast. -/
def identityChange : List Nat → List Nat := fun x => x

/-- Step-1 call of GrowCluster on proposer `i`: AddAccepter(target),
subject to the schedule's injected transport failure. -/
def growOp1 (t : Nat) (sc : Sched) (i : Nat) (s : PState) : Except Err PState :=
  if sc.f1 i then .error .transport else addAccepterF t s

/-- Step-3 call of GrowCluster on proposer `i`: AddPreparer(target). -/
def growOp3 (t : Nat) (sc : Sched) (i : Nat) (s : PState) : Except Err PState :=
  if sc.f3 i then .error .transport else addPreparerF t s

/-- Step-1 call of ShrinkCluster on proposer `i`: RemovePreparer(target). -/
def shrinkOp1 (t : Nat) (sc : Sched) (i : Nat) (s : PState) : Except Err PState :=
  if sc.f1 i then .error .transport else removePreparerF t s

/-- Step-3 call of ShrinkCluster on proposer `i`: RemoveAccepter(target). -/
def shrinkOp3 (t : Nat) (sc : Sched) (i : Nat) (s : PState) : Except Err PState :=
  if sc.f3 i then .error .transport else removeAccepterF t s

/-- GrowCluster: AddAccepter on every proposer, an identity Propose on the
zerokey against the rand.Intn-chosen proposer, then AddPreparer on every
proposer; each success pushes an undo closure, any error plays the undo
stack (in reverse push order) and returns the error wrapped with the step
message; success clears the undo stack.  rand.Intn(0) panics. -/
def growCluster (t : Nat) (sc : Sched) (states : List PState) :
    Out × List PState × List Ev :=
  match phase (growOp1 t sc)
      (fun i => .remAcc i t) (fun i => .addAccepterEv i) 0 [] states [] [] with
  | (s1, u1, tr1, some e) =>
      (.err (.wrap "during grow step 1 (add accepter)" e), applyUndo u1 s1, tr1 ++ u1.map undoEv)
  | (s1, u1, tr1, none) =>
    if states.length = 0 then (.panic, s1, tr1)
    else
      let p := sc.r % states.length
      let tr2 := tr1 ++ [Ev.proposeIdentityEv p zerokey]
      if sc.fProp then
        (.err (.wrap "during grow step 2 (identity read)" .transport), applyUndo u1 s1, tr2 ++ u1.map undoEv)
      else
        match phase (growOp3 t sc)
            (fun i => .remPrep i t) (fun i => .addPreparerEv i) 0 [] s1 u1 tr2 with
        | (s3, u3, tr3, some e) =>
            (.err (.wrap "during grow step 3 (add preparer)" e), applyUndo u3 s3, tr3 ++ u3.map undoEv)
        | (s3, _, tr3, none) => (.ok, s3, tr3)

/-- ShrinkCluster: the mirror of GrowCluster in reverse order --
RemovePreparer on every proposer, the identity Propose, then
RemoveAccepter on every proposer -- with the same undo discipline. -/
def shrinkCluster (t : Nat) (sc : Sched) (states : List PState) :
    Out × List PState × List Ev :=
  match phase (shrinkOp1 t sc)
      (fun i => .addPrep i t) (fun i => .removePreparerEv i) 0 [] states [] [] with
  | (s1, u1, tr1, some e) =>
      (.err (.wrap "during shrink step 1 (remove preparer)" e), applyUndo u1 s1, tr1 ++ u1.map undoEv)
  | (s1, u1, tr1, none) =>
    if states.length = 0 then (.panic, s1, tr1)
    else
      let p := sc.r % states.length
      let tr2 := tr1 ++ [Ev.proposeIdentityEv p zerokey]
      if sc.fProp then
        (.err (.wrap "during shrink step 2 (identity read)" .transport), applyUndo u1 s1, tr2 ++ u1.map undoEv)
      else
        match phase (shrinkOp3 t sc)
            (fun i => .addAcc i t) (fun i => .removeAccepterEv i) 0 [] s1 u1 tr2 with
        | (s3, u3, tr3, some e) =>
            (.err (.wrap "during shrink step 3 (remove accepter)" e), applyUndo u3 s3, tr3 ++ u3.map undoEv)
        | (s3, _, tr3, none) => (.ok, s3, tr3)

/-- Outcome of one FullIdentityRead in a garbage-collection iteration:
success, the context.Canceled error exactly, or any other error. -/
inductive ReadRes where
  | okRead
  | canceledRead
  | failedRead (e : Err)
deriving DecidableEq

/-- Environment oracle for one GarbageCollect call: the read outcome of
iteration `i`, whether ctx.Done fires during iteration `i`'s one-second
back-off (instead of the timer), the value ctx.Err() yields then, and the
rand.Intn oracle per iteration. -/
structure GCOracle where
  reads : Nat → ReadRes
  ctxDone : Nat → Bool
  ctxErr : Err
  r : Nat → Nat

/-- Drop the first iteration from a garbage-collection oracle. -/
def shiftO (o : GCOracle) : GCOracle :=
  { o with reads := fun i => o.reads (i+1), ctxDone := fun i => o.ctxDone (i+1),
           r := fun i => o.r (i+1) }

/-- GarbageCollect, as the source implements it: a retry loop whose body
picks a random proposer (rand.Intn panics when the proposer list is
empty), runs FullIdentityRead on it, returns context.Canceled verbatim as
fatal, retries after a one-second back-off on any other error unless
ctx.Done fires first (then returns ctx.Err()), and on a successful read
returns nil at once -- phases (b), (c), (d) of the paper are left as an
unimplemented TODO in the body, so no FastForward and no RemoveIfEmpty
call is ever made.  `np` is the proposer count; recursion is fuelled. -/
def gcRun (np : Nat) (key : String) (o : GCOracle) : Nat → Out × List Ev
  | 0 => (.outOfFuel, [])
  | fuel+1 =>
    if np = 0 then (.panic, [])
    else
      let ev := Ev.fullIdentityReadEv (o.r 0 % np) key
      match o.reads 0 with
      | .canceledRead => (.err .canceled, [ev])
      | .failedRead _ =>
          if o.ctxDone 0 then (.err o.ctxErr, [ev])
          else
            let rest := gcRun np key (shiftO o) fuel
            (rest.1, ev :: Ev.backoffEv :: rest.2)
      | .okRead => (.ok, [ev])

/-- One reply to the identity broadcast of gcBroadcastIdentity: the state
and ballot counter Propose returned, or its error. -/
structure PropReply where
  state : List Nat
  counter : Nat
  err : Option Err
deriving DecidableEq

/-- Collection loop of gcBroadcastIdentity over the replies in arrival
order: returns the running maximum counter as the tombstone, stopping
with the first error, or with ErrNotEmpty on the first non-empty state;
also counts how many replies were taken off the channel. -/
def gcBroadcastIdentityAux : List PropReply → Nat → Nat → (Except Err Nat × Nat)
  | [], tomb, n => (.ok tomb, n)
  | rep :: rest, tomb, n =>
    match rep.err with
    | some e => (.error e, n+1)
    | none =>
      if rep.state.length ≠ 0 then (.error .notEmpty, n+1)
      else gcBroadcastIdentityAux rest (if rep.counter > tomb then rep.counter else tomb) (n+1)

/-- gcBroadcastIdentity: fan out Propose(key, identity) to every proposer
and collect the replies (the argument is the channel arrival order); any
error fails the batch, a non-empty state yields ErrNotEmpty, otherwise the
maximum returned ballot counter is the tombstone. -/
def gcBroadcastIdentity (arrivals : List PropReply) : Except Err Nat :=
  (gcBroadcastIdentityAux arrivals 0 0).1

/-- The number of replies gcBroadcastIdentity takes off its channel before
returning; the channel holds one reply per spawned worker. -/
def gcBroadcastIdentityReplies (arrivals : List PropReply) : Nat :=
  (gcBroadcastIdentityAux arrivals 0 0).2

/-- Collection loop of gcFastForward over the replies in arrival order:
any error is returned at once; also counts the replies taken. -/
def gcFastForwardAux : List (Option Err) → Nat → (Option Err × Nat)
  | [], n => (none, n)
  | some e :: _, n => (some e, n+1)
  | none :: rest, n => gcFastForwardAux rest (n+1)

/-- gcFastForward: fan out FastForward(tombstone) to every proposer and
verify the replies (given in arrival order); the first error fails the batch. -/
def gcFastForward (arrivals : List (Option Err)) : Option Err :=
  (gcFastForwardAux arrivals 0).1

/-- The number of replies gcFastForward takes off its channel before returning. -/
def gcFastForwardReplies (arrivals : List (Option Err)) : Nat :=
  (gcFastForwardAux arrivals 0).2

/-- Collection loop of gcRemoveIfEmpty (identical in shape to gcFastForward). -/
def gcRemoveIfEmptyAux : List (Option Err) → Nat → (Option Err × Nat)
  | [], n => (none, n)
  | some e :: _, n => (some e, n+1)
  | none :: rest, n => gcRemoveIfEmptyAux rest (n+1)

/-- gcRemoveIfEmpty: fan out RemoveIfEmpty(key) to every acceptor and
verify the replies; a 100 percent quorum is needed, the first error is fatal. -/
def gcRemoveIfEmpty (arrivals : List (Option Err)) : Option Err :=
  (gcRemoveIfEmptyAux arrivals 0).1

/-- The number of replies gcRemoveIfEmpty takes off its channel before returning. -/
def gcRemoveIfEmptyReplies (arrivals : List (Option Err)) : Nat :=
  (gcRemoveIfEmptyAux arrivals 0).2

/-! The advertise-IP helper of package cluster. -/

/-- A net.IP value: its byte slice (length 4 or 16 in practice). -/
structure IP where
  bytes : List Nat
deriving DecidableEq

/-- The 12-byte header of an IPv4-in-IPv6 address, as in net.IP. -/
def v4Header : List Nat := [0, 0, 0, 0, 0, 0, 0, 0, 0, 0, 255, 255]

/-- net.IP.To4: a 4-byte slice is returned as is, a 16-byte slice with the
IPv4-in-IPv6 header is shortened to its last 4 bytes, anything else is nil. -/
def to4 (ip : IP) : Option IP :=
  if ip.bytes.length = 4 then some ip
  else if ip.bytes.length = 16 ∧ ip.bytes.take 12 = v4Header then some ⟨ip.bytes.drop 12⟩
  else none

/-- The canonicalization calculateAdvertiseIP applies after ParseIP or a
resolver lookup: replace the IP by its 4-byte form when To4 is non-nil. -/
def canon (ip : IP) : IP :=
  match to4 ip with
  | some ip4 => ip4
  | none => ip

/-- A Go error value as calculateAdvertiseIP builds them. -/
inductive GoErr where
  | wrapped (msg : String) (inner : GoErr)
  | resolvedIPs (host : String) (n : Nat)
  | parseFailed (s : String)
  | env (tag : String)
deriving DecidableEq

/-- pkg/errors.Wrap: wraps a non-nil error with a message and returns nil
when the error is nil. -/
def errorsWrap (e : Option GoErr) (msg : String) : Option GoErr :=
  match e with
  | none => none
  | some g => some (.wrapped msg g)

/-- The environment calculateAdvertiseIP consults: net.ParseIP, the
hostname resolver, and sockaddr.GetPrivateIP (which yields a string and an
error; an empty string with a nil error means no private IP was found). -/
structure NetEnv where
  parseIP : String → Option IP
  lookupIPAddr : String → List IP × Option GoErr
  getPrivateIP : String × Option GoErr

/-- The bind-host fallback half of calculateAdvertiseIP: for the all-zeroes
bind host consult GetPrivateIP (note the empty-result branch wraps a nil
error, hence returns a nil error); otherwise parse the bind host as an IP,
and finally resolve it, demanding exactly one address. -/
def bindFall (env : NetEnv) (bindHost : String) : Option IP × Option GoErr :=
  if bindHost = "0.0.0.0" then
    let pr := env.getPrivateIP
    if pr.2 ≠ none then
      (none, errorsWrap pr.2 "failed to deduce private IP from all-zeroes bind address")
    else if pr.1 = "" then
      (none, errorsWrap pr.2 "no private IP found, and explicit advertise address not provided")
    else
      match env.parseIP pr.1 with
      | none => (none, some (.parseFailed pr.1))
      | some ip => (some ip, none)
  else
    match env.parseIP bindHost with
    | some ip => (some ip, none)
    | none =>
      let lk := env.lookupIPAddr bindHost
      if lk.2 = none ∧ lk.1.length = 1 then (some (canon (lk.1.headD ⟨[]⟩)), none)
      else if lk.2 = none then
        (none, errorsWrap (some (.resolvedIPs bindHost lk.1.length)) "bind host failed to resolve")
      else (none, errorsWrap lk.2 "bind host failed to resolve")

/-- calculateAdvertiseIP: prefer a non-empty advertise host -- parse it as
an IP (canonicalized via To4) or resolve it to exactly one address
(likewise canonicalized); on any other outcome log a warning and fall back
to the bind-host logic of `bindFall`. -/
def calculateAdvertiseIP (env : NetEnv) (bindHost advertiseHost : String) :
    Option IP × Option GoErr :=
  if advertiseHost ≠ "" then
    match env.parseIP advertiseHost with
    | some ip => (some (canon ip), none)
    | none =>
      let lk := env.lookupIPAddr advertiseHost
      if lk.2 = none ∧ lk.1.length = 1 then (some (canon (lk.1.headD ⟨[]⟩)), none)
      else bindFall env bindHost
  else bindFall env bindHost

/-! Helper lemmas about the saga phase loop. -/

theorem modifyAt_append (f : PState → PState) (l1 : List PState) (s : PState) (l2 : List PState) :
    modifyAt f l1.length (l1 ++ s :: l2) = l1 ++ f s :: l2 := by
  induction l1 with
  | nil => rfl
  | cons a l ih => simp [modifyAt, ih]

theorem phase_applyUndo (op : Nat → PState → Except Err PState) (mkU : Nat → UndoA)
    (mkE : Nat → Ev)
    (hinv : ∀ k s s2, op k s = .ok s2 → ∀ l1 l2, l1.length = k →
      applyOne (mkU k) (l1 ++ s2 :: l2) = l1 ++ s :: l2) :
    ∀ (todo done : List PState) (undo : List UndoA) (tr : List Ev),
      applyUndo (phase op mkU mkE done.length done todo undo tr).2.1
          (phase op mkU mkE done.length done todo undo tr).1
        = applyUndo undo (done.reverse ++ todo) := by
  intro todo
  induction todo with
  | nil => intro done undo tr; simp [phase]
  | cons s rest ih =>
    intro done undo tr
    cases h : op done.length s with
    | error e => simp [phase, h]
    | ok s2 =>
      have h2 := ih (s2 :: done) (mkU done.length :: undo) (tr ++ [mkE done.length])
      have h3 : applyOne (mkU done.length) (done.reverse ++ s2 :: rest) = done.reverse ++ s :: rest :=
        hinv done.length s s2 h done.reverse rest (by simp)
      simp only [List.length_cons, List.reverse_cons, List.append_assoc, List.singleton_append,
        applyUndo, h3] at h2
      simp only [phase, h]
      exact h2

theorem addAccepterF_inv (t : Nat) (sc : Sched) :
    ∀ k s s2, growOp1 t sc k s = .ok s2 →
      ∀ l1 l2, l1.length = k → applyOne (UndoA.remAcc k t) (l1 ++ s2 :: l2) = l1 ++ s :: l2 := by
  intro k s s2 h l1 l2 hl
  unfold growOp1 at h
  by_cases hf : sc.f1 k
  · rw [if_pos hf] at h
    simp at h
  rw [if_neg hf] at h
  unfold addAccepterF at h
  by_cases hm : t ∈ s.acceptSet
  · rw [if_pos hm] at h
    simp at h
  rw [if_neg hm] at h
  injection h with h2
  subst h2
  subst hl
  rw [applyOne, modifyAt_append]
  simp

theorem addPreparerF_inv (t : Nat) (sc : Sched) :
    ∀ k s s2, growOp3 t sc k s = .ok s2 →
      ∀ l1 l2, l1.length = k → applyOne (UndoA.remPrep k t) (l1 ++ s2 :: l2) = l1 ++ s :: l2 := by
  intro k s s2 h l1 l2 hl
  unfold growOp3 at h
  by_cases hf : sc.f3 k
  · rw [if_pos hf] at h
    simp at h
  rw [if_neg hf] at h
  unfold addPreparerF at h
  by_cases hm : t ∈ s.prepareSet
  · rw [if_pos hm] at h
    simp at h
  rw [if_neg hm] at h
  injection h with h2
  subst h2
  subst hl
  rw [applyOne, modifyAt_append]
  simp

/-- C2: for every proposer list and every injected failure, if GrowCluster
returns an error then (undo calls succeeding on the in-memory fakes) every
proposer's PrepareSet and AcceptSet at the end equal their values before
the call, and in particular a target absent from both sets of every
proposer before the call is absent from both sets of every proposer after it. -/
theorem grow_error_restores_proposers (t : Nat) (sc : Sched) (states : List PState) (e : Err)
    (h : (growCluster t sc states).1 = .err e) :
    (growCluster t sc states).2.1 = states ∧
    ((∀ s ∈ states, t ∉ s.prepareSet ∧ t ∉ s.acceptSet) →
      ∀ s ∈ (growCluster t sc states).2.1, t ∉ s.prepareSet ∧ t ∉ s.acceptSet) := by
  have hrestore : (growCluster t sc states).2.1 = states := by
    have hu1 := phase_applyUndo
      (growOp1 t sc)
      (fun i => UndoA.remAcc i t) (fun i => Ev.addAccepterEv i)
      (addAccepterF_inv t sc) states [] [] []
    simp only [List.length_nil, List.reverse_nil, List.nil_append, applyUndo] at hu1
    unfold growCluster at h ⊢
    rcases hp1 : phase (growOp1 t sc)
        (fun i => UndoA.remAcc i t) (fun i => Ev.addAccepterEv i) 0 [] states [] [] with
      ⟨s1, u1, tr1, e1⟩
    rw [hp1] at h hu1
    dsimp only at h hu1 ⊢
    rcases e1 with _ | e1
    · dsimp only at h ⊢
      by_cases hlen : states.length = 0
      · rw [if_pos hlen] at h
        simp at h
      rw [if_neg hlen] at h ⊢
      by_cases hfp : sc.fProp
      · rw [if_pos hfp] at h ⊢
        exact hu1
      rw [if_neg hfp] at h ⊢
      have hu3 := phase_applyUndo
        (growOp3 t sc)
        (fun i => UndoA.remPrep i t) (fun i => Ev.addPreparerEv i)
        (addPreparerF_inv t sc) s1 [] u1
        (tr1 ++ [Ev.proposeIdentityEv (sc.r % states.length) zerokey])
      simp only [List.length_nil, List.reverse_nil, List.nil_append] at hu3
      rcases hp3 : phase (growOp3 t sc)
          (fun i => UndoA.remPrep i t) (fun i => Ev.addPreparerEv i) 0 [] s1 u1
          (tr1 ++ [Ev.proposeIdentityEv (sc.r % states.length) zerokey]) with
        ⟨s3, u3, tr3, e3⟩
      rw [hp3] at h hu3
      dsimp only at h hu3 ⊢
      rcases e3 with _ | e3
      · simp at h
      dsimp only at h ⊢
      rw [hu3, hu1]
    · dsimp only at h ⊢
      exact hu1
  refine ⟨hrestore, fun habs s hs => ?_⟩
  rw [hrestore] at hs
  exact habs s hs

/-- Concrete run for `grow_error_restores_proposers`: with two proposers,
an injected failure of the second AddAccepter makes GrowCluster return an
error and leave both proposers' sets exactly as they were. -/
theorem grow_error_restores_proposers_witness :
    (growCluster 7 ⟨fun i => i = 1, false, fun _ => false, 0⟩
        [⟨[1], [2]⟩, ⟨[], []⟩]).2.1 = [⟨[1], [2]⟩, ⟨[], []⟩] ∧
    ((∀ s ∈ ([⟨[1], [2]⟩, ⟨[], []⟩] : List PState), 7 ∉ s.prepareSet ∧ 7 ∉ s.acceptSet) →
      ∀ s ∈ (growCluster 7 ⟨fun i => i = 1, false, fun _ => false, 0⟩
          [⟨[1], [2]⟩, ⟨[], []⟩]).2.1, 7 ∉ s.prepareSet ∧ 7 ∉ s.acceptSet) :=
  grow_error_restores_proposers 7 ⟨fun i => i = 1, false, fun _ => false, 0⟩
    [⟨[1], [2]⟩, ⟨[], []⟩] (.wrap "during grow step 1 (add accepter)" .transport) (by decide)

theorem applyOp_length (op : Nat → PState → Except Err PState) :
    ∀ (i : Nat) (l : List PState), (applyOp op i l).length = l.length := by
  intro i l
  induction l generalizing i with
  | nil => rfl
  | cons s rest ih => simp [applyOp, ih]

theorem phase_err_none (op : Nat → PState → Except Err PState) (mkU : Nat → UndoA)
    (mkE : Nat → Ev) :
    ∀ (todo done : List PState) (undo : List UndoA) (tr : List Ev) (i : Nat),
      (phase op mkU mkE i done todo undo tr).2.2.2 = none →
      phase op mkU mkE i done todo undo tr
        = (done.reverse ++ applyOp op i todo,
           ((List.range' i todo.length).map mkU).reverse ++ undo,
           tr ++ (List.range' i todo.length).map mkE, none) := by
  intro todo
  induction todo with
  | nil => intro done undo tr i h; simp [phase, applyOp]
  | cons s rest ih =>
    intro done undo tr i h
    cases hop : op i s with
    | error e =>
      simp only [phase, hop] at h
      simp at h
    | ok s2 =>
      simp only [phase, hop] at h ⊢
      rw [ih (s2 :: done) (mkU i :: undo) (tr ++ [mkE i]) (i+1) h]
      simp [applyOp, hop, List.range'_succ, List.append_assoc]

theorem phase_first_fail (op : Nat → PState → Except Err PState) (mkU : Nat → UndoA)
    (mkE : Nat → Ev) :
    ∀ (todo : List PState) (k : Nat) (done : List PState) (undo : List UndoA) (tr : List Ev)
      (i : Nat) (e : Err) (hk : k < todo.length),
      (∀ j (hj : j < k), ∃ s2, op (i+j) (todo.get ⟨j, lt_trans hj hk⟩) = .ok s2) →
      op (i+k) (todo.get ⟨k, hk⟩) = .error e →
      phase op mkU mkE i done todo undo tr
        = (done.reverse ++ applyOp op i (todo.take k) ++ todo.drop k,
           ((List.range' i k).map mkU).reverse ++ undo,
           tr ++ (List.range' i (k+1)).map mkE, some e) := by
  intro todo
  induction todo with
  | nil => intro k done undo tr i e hk; exact absurd hk (by simp)
  | cons s rest ih =>
    intro k done undo tr i e hk hok hfail
    cases k with
    | zero =>
      have hop : op i s = .error e := by simpa using hfail
      simp [phase, hop, applyOp, List.range'_succ]
    | succ k =>
      obtain ⟨s2, hop⟩ := hok 0 (Nat.succ_pos k)
      rw [Nat.add_zero] at hop
      simp only [List.get] at hop
      have hk2 : k < rest.length := Nat.lt_of_succ_lt_succ hk
      have hok2 : ∀ j (hj : j < k), ∃ s3, op (i+1+j) (rest.get ⟨j, lt_trans hj hk2⟩) = .ok s3 := by
        intro j hj
        obtain ⟨s3, h3⟩ := hok (j+1) (Nat.succ_lt_succ hj)
        refine ⟨s3, ?_⟩
        have harith : i + (j + 1) = i + 1 + j := by omega
        rw [harith] at h3
        simpa using h3
      have hfail2 : op (i+1+k) (rest.get ⟨k, hk2⟩) = .error e := by
        have harith : i + (k + 1) = i + 1 + k := by omega
        rw [harith] at hfail
        simpa using hfail
      simp only [phase, hop]
      rw [ih k (s2 :: done) (mkU i :: undo) (tr ++ [mkE i]) (i+1) e hk2 hok2 hfail2]
      simp [applyOp, hop, List.range'_succ, List.append_assoc]

/-- C4: a successful GrowCluster call makes exactly the sequence of calls
AddAccepter on every proposer, one identity Propose on the zerokey against
the randomly chosen proposer, then AddPreparer on every proposer, and
makes no Remove call of any kind. -/
theorem grow_success_sequence (t : Nat) (sc : Sched) (states : List PState)
    (h : (growCluster t sc states).1 = .ok) :
    (growCluster t sc states).2.2
      = (List.range states.length).map Ev.addAccepterEv
        ++ [Ev.proposeIdentityEv (sc.r % states.length) zerokey]
        ++ (List.range states.length).map Ev.addPreparerEv
    ∧ ∀ ev ∈ (growCluster t sc states).2.2, isRemoveCallEv ev = false := by
  have hseq : (growCluster t sc states).2.2
      = (List.range states.length).map Ev.addAccepterEv
        ++ [Ev.proposeIdentityEv (sc.r % states.length) zerokey]
        ++ (List.range states.length).map Ev.addPreparerEv := by
    unfold growCluster at h ⊢
    rcases hp1 : phase (growOp1 t sc)
        (fun i => UndoA.remAcc i t) (fun i => Ev.addAccepterEv i) 0 [] states [] [] with
      ⟨s1, u1, tr1, e1⟩
    rw [hp1] at h
    rcases e1 with _ | e1
    · have hfull := phase_err_none
        (growOp1 t sc)
        (fun i => UndoA.remAcc i t) (fun i => Ev.addAccepterEv i) states [] [] [] 0
        (by rw [hp1])
      rw [hp1] at hfull
      have hs1 : s1 = applyOp
          (growOp1 t sc) 0 states := by
        have := congrArg Prod.fst hfull
        simpa using this
      have htr1 : tr1 = (List.range' 0 states.length).map Ev.addAccepterEv := by
        have := congrArg (fun x => x.2.2.1) hfull
        simpa using this
      dsimp only at h ⊢
      by_cases hlen : states.length = 0
      · rw [if_pos hlen] at h
        simp at h
      rw [if_neg hlen] at h ⊢
      by_cases hfp : sc.fProp
      · rw [if_pos hfp] at h
        simp at h
      rw [if_neg hfp] at h ⊢
      rcases hp3 : phase (growOp3 t sc)
          (fun i => UndoA.remPrep i t) (fun i => Ev.addPreparerEv i) 0 [] s1 u1
          (tr1 ++ [Ev.proposeIdentityEv (sc.r % states.length) zerokey]) with
        ⟨s3, u3, tr3, e3⟩
      rw [hp3] at h
      rcases e3 with _ | e3
      · have hfull3 := phase_err_none
          (growOp3 t sc)
          (fun i => UndoA.remPrep i t) (fun i => Ev.addPreparerEv i) s1 [] u1
          (tr1 ++ [Ev.proposeIdentityEv (sc.r % states.length) zerokey]) 0 (by rw [hp3])
        rw [hp3] at hfull3
        have htr3 : tr3 = (tr1 ++ [Ev.proposeIdentityEv (sc.r % states.length) zerokey])
            ++ (List.range' 0 s1.length).map Ev.addPreparerEv := by
          have := congrArg (fun x => x.2.2.1) hfull3
          simpa using this
        have hlen1 : s1.length = states.length := by
          rw [hs1, applyOp_length]
        dsimp only
        rw [htr3, htr1, hlen1]
        simp [List.range_eq_range', List.append_assoc]
      · simp at h
    · simp at h
  refine ⟨hseq, fun ev hev => ?_⟩
  rw [hseq] at hev
  simp only [List.mem_append, List.mem_map, List.mem_range, List.mem_singleton] at hev
  rcases hev with (⟨p, _, rfl⟩ | rfl) | ⟨p, _, rfl⟩ <;> rfl

/-- Concrete run for `grow_success_sequence`: with two proposers and no
failure injected, GrowCluster succeeds and the trace is the documented
five calls in order. -/
theorem grow_success_sequence_witness :
    (growCluster 7 ⟨fun _ => false, false, fun _ => false, 1⟩
        [⟨[1], [1]⟩, ⟨[2], [2]⟩]).2.2
      = (List.range 2).map Ev.addAccepterEv
        ++ [Ev.proposeIdentityEv 1 zerokey]
        ++ (List.range 2).map Ev.addPreparerEv
    ∧ ∀ ev ∈ (growCluster 7 ⟨fun _ => false, false, fun _ => false, 1⟩
        [⟨[1], [1]⟩, ⟨[2], [2]⟩]).2.2, isRemoveCallEv ev = false :=
  grow_success_sequence 7 ⟨fun _ => false, false, fun _ => false, 1⟩
    [⟨[1], [1]⟩, ⟨[2], [2]⟩] (by decide)

theorem isUndoEv_undoEv (u : UndoA) : isUndoEv (undoEv u) = true := by
  cases u <;> rfl

theorem mem_map_undoEv {l : List UndoA} : ∀ ev ∈ l.map undoEv, isUndoEv ev = true := by
  intro ev hev
  rw [List.mem_map] at hev
  obtain ⟨u, _, h⟩ := hev
  rw [← h]
  exact isUndoEv_undoEv u

/-- The proposer state at an index (empty when out of range). -/
def getP (l : List PState) (i : Nat) : PState := l.getD i ⟨[], []⟩

theorem getP_eq_get (l : List PState) (i : Nat) (h : i < l.length) : getP l i = l.get ⟨i, h⟩ := by
  induction l generalizing i with
  | nil => simp at h
  | cons s rest ih =>
    cases i with
    | zero => rfl
    | succ i => exact ih i (Nat.lt_of_succ_lt_succ h)

/-- The proposer states after ShrinkCluster's first per-proposer step. -/
def afterShrink1 (t : Nat) (sc : Sched) (states : List PState) : List PState :=
  applyOp (shrinkOp1 t sc) 0 states

theorem phase_all_ok (op : Nat → PState → Except Err PState) (mkU : Nat → UndoA)
    (mkE : Nat → Ev) :
    ∀ (todo done : List PState) (undo : List UndoA) (tr : List Ev) (i : Nat),
      (∀ j (hj : j < todo.length), ∃ s2, op (i+j) (todo.get ⟨j, hj⟩) = .ok s2) →
      phase op mkU mkE i done todo undo tr
        = (done.reverse ++ applyOp op i todo,
           ((List.range' i todo.length).map mkU).reverse ++ undo,
           tr ++ (List.range' i todo.length).map mkE, none) := by
  intro todo
  induction todo with
  | nil => intro done undo tr i hok; simp [phase, applyOp]
  | cons s rest ih =>
    intro done undo tr i hok
    obtain ⟨s2, hop⟩ := hok 0 (Nat.succ_pos rest.length)
    rw [Nat.add_zero] at hop
    simp only [List.get] at hop
    have hok2 : ∀ j (hj : j < rest.length), ∃ s3, op (i+1+j) (rest.get ⟨j, hj⟩) = .ok s3 := by
      intro j hj
      obtain ⟨s3, h3⟩ := hok (j+1) (Nat.succ_lt_succ hj)
      refine ⟨s3, ?_⟩
      have harith : i + (j + 1) = i + 1 + j := by omega
      rw [harith] at h3
      simpa using h3
    simp only [phase, hop]
    rw [ih (s2 :: done) (mkU i :: undo) (tr ++ [mkE i]) (i+1) hok2]
    simp [applyOp, hop, List.range'_succ, List.append_assoc]

/-- C5: ShrinkCluster executes GrowCluster's steps mirrored in reverse
order -- RemovePreparer on every proposer, then an identity read on the
zerokey against the randomly chosen proposer, then RemoveAccepter on every
proposer -- stopping at the first failing step and returning that step's
error wrapped with the step message; after the failure only compensating
undo calls run. -/
theorem shrink_mirrored_first_error (t : Nat) (sc : Sched) (states : List PState) :
    ((shrinkCluster t sc states).1 = .ok →
      (shrinkCluster t sc states).2.2
        = (List.range states.length).map Ev.removePreparerEv
          ++ [Ev.proposeIdentityEv (sc.r % states.length) zerokey]
          ++ (List.range states.length).map Ev.removeAccepterEv)
    ∧ (∀ k e (hk : k < states.length),
        (∀ j, j < k → ∃ s2, shrinkOp1 t sc j (getP states j) = .ok s2) →
        shrinkOp1 t sc k (getP states k) = .error e →
        (shrinkCluster t sc states).1 = .err (.wrap "during shrink step 1 (remove preparer)" e)
        ∧ ∃ tail, (shrinkCluster t sc states).2.2
            = (List.range (k+1)).map Ev.removePreparerEv ++ tail
          ∧ ∀ ev ∈ tail, isUndoEv ev = true)
    ∧ (states ≠ [] →
        (∀ j, j < states.length → ∃ s2, shrinkOp1 t sc j (getP states j) = .ok s2) →
        sc.fProp = true →
        (shrinkCluster t sc states).1 = .err (.wrap "during shrink step 2 (identity read)" .transport)
        ∧ ∃ tail, (shrinkCluster t sc states).2.2
            = (List.range states.length).map Ev.removePreparerEv
              ++ [Ev.proposeIdentityEv (sc.r % states.length) zerokey] ++ tail
          ∧ ∀ ev ∈ tail, isUndoEv ev = true)
    ∧ (∀ k e (hk : k < states.length),
        (∀ j, j < states.length → ∃ s2, shrinkOp1 t sc j (getP states j) = .ok s2) →
        sc.fProp = false →
        (∀ j, j < k → ∃ s2, shrinkOp3 t sc j (getP (afterShrink1 t sc states) j) = .ok s2) →
        shrinkOp3 t sc k (getP (afterShrink1 t sc states) k) = .error e →
        (shrinkCluster t sc states).1 = .err (.wrap "during shrink step 3 (remove accepter)" e)
        ∧ ∃ tail, (shrinkCluster t sc states).2.2
            = (List.range states.length).map Ev.removePreparerEv
              ++ [Ev.proposeIdentityEv (sc.r % states.length) zerokey]
              ++ (List.range (k+1)).map Ev.removeAccepterEv ++ tail
          ∧ ∀ ev ∈ tail, isUndoEv ev = true) := by
  refine ⟨?_, ?_, ?_, ?_⟩
  · intro h
    unfold shrinkCluster at h ⊢
    rcases hp1 : phase (shrinkOp1 t sc) (fun i => UndoA.addPrep i t)
        (fun i => Ev.removePreparerEv i) 0 [] states [] [] with ⟨s1, u1, tr1, e1⟩
    rw [hp1] at h
    rcases e1 with _ | e1
    · have hfull := phase_err_none (shrinkOp1 t sc) (fun i => UndoA.addPrep i t)
        (fun i => Ev.removePreparerEv i) states [] [] [] 0 (by rw [hp1])
      rw [hp1] at hfull
      have hs1 : s1 = applyOp (shrinkOp1 t sc) 0 states := by
        have := congrArg Prod.fst hfull
        simpa using this
      have htr1 : tr1 = (List.range' 0 states.length).map Ev.removePreparerEv := by
        have := congrArg (fun x => x.2.2.1) hfull
        simpa using this
      dsimp only at h ⊢
      by_cases hlen : states.length = 0
      · rw [if_pos hlen] at h
        simp at h
      rw [if_neg hlen] at h ⊢
      by_cases hfp : sc.fProp
      · rw [if_pos hfp] at h
        simp at h
      rw [if_neg hfp] at h ⊢
      rcases hp3 : phase (shrinkOp3 t sc) (fun i => UndoA.addAcc i t)
          (fun i => Ev.removeAccepterEv i) 0 [] s1 u1
          (tr1 ++ [Ev.proposeIdentityEv (sc.r % states.length) zerokey]) with ⟨s3, u3, tr3, e3⟩
      rw [hp3] at h
      rcases e3 with _ | e3
      · have hfull3 := phase_err_none (shrinkOp3 t sc) (fun i => UndoA.addAcc i t)
          (fun i => Ev.removeAccepterEv i) s1 [] u1
          (tr1 ++ [Ev.proposeIdentityEv (sc.r % states.length) zerokey]) 0 (by rw [hp3])
        rw [hp3] at hfull3
        have htr3 : tr3 = (tr1 ++ [Ev.proposeIdentityEv (sc.r % states.length) zerokey])
            ++ (List.range' 0 s1.length).map Ev.removeAccepterEv := by
          have := congrArg (fun x => x.2.2.1) hfull3
          simpa using this
        have hlen1 : s1.length = states.length := by rw [hs1, applyOp_length]
        dsimp only
        rw [htr3, htr1, hlen1]
        simp [List.range_eq_range', List.append_assoc]
      · simp at h
    · simp at h
  · intro k e hk hok hfail
    have hok2 : ∀ j (hj : j < k), ∃ s2,
        shrinkOp1 t sc (0+j) (states.get ⟨j, lt_trans hj hk⟩) = .ok s2 := by
      intro j hj
      obtain ⟨s2, h2⟩ := hok j hj
      refine ⟨s2, ?_⟩
      rw [Nat.zero_add, ← getP_eq_get states j (lt_trans hj hk)]
      exact h2
    have hfail2 : shrinkOp1 t sc (0+k) (states.get ⟨k, hk⟩) = .error e := by
      rw [Nat.zero_add, ← getP_eq_get states k hk]
      exact hfail
    have hfirst := phase_first_fail (shrinkOp1 t sc) (fun i => UndoA.addPrep i t)
      (fun i => Ev.removePreparerEv i) states k [] [] [] 0 e hk hok2 hfail2
    unfold shrinkCluster
    rw [hfirst]
    dsimp only
    refine ⟨rfl, (((List.range' 0 k).map (fun i => UndoA.addPrep i t)).reverse
        ++ ([] : List UndoA)).map undoEv, ?_, mem_map_undoEv⟩
    simp [List.range_eq_range']
  · intro hne hokAll hfp
    have hok2 : ∀ j (hj : j < states.length), ∃ s2,
        shrinkOp1 t sc (0+j) (states.get ⟨j, hj⟩) = .ok s2 := by
      intro j hj
      obtain ⟨s2, h2⟩ := hokAll j hj
      refine ⟨s2, ?_⟩
      rw [Nat.zero_add, ← getP_eq_get states j hj]
      exact h2
    have hall := phase_all_ok (shrinkOp1 t sc) (fun i => UndoA.addPrep i t)
      (fun i => Ev.removePreparerEv i) states [] [] [] 0 hok2
    unfold shrinkCluster
    rw [hall]
    dsimp only
    have hlen : ¬ states.length = 0 := fun hc => hne (List.length_eq_zero.mp hc)
    rw [if_neg hlen, if_pos hfp]
    refine ⟨rfl, (((List.range' 0 states.length).map (fun i => UndoA.addPrep i t)).reverse
        ++ ([] : List UndoA)).map undoEv, ?_, mem_map_undoEv⟩
    simp [List.range_eq_range']
  · intro k e hk hokAll hfp hok3 hfail3
    have hok2 : ∀ j (hj : j < states.length), ∃ s2,
        shrinkOp1 t sc (0+j) (states.get ⟨j, hj⟩) = .ok s2 := by
      intro j hj
      obtain ⟨s2, h2⟩ := hokAll j hj
      refine ⟨s2, ?_⟩
      rw [Nat.zero_add, ← getP_eq_get states j hj]
      exact h2
    have hall := phase_all_ok (shrinkOp1 t sc) (fun i => UndoA.addPrep i t)
      (fun i => Ev.removePreparerEv i) states [] [] [] 0 hok2
    unfold shrinkCluster
    rw [hall]
    dsimp only
    have hlen : ¬ states.length = 0 := by omega
    rw [if_neg hlen, if_neg (by simp [hfp] : ¬ sc.fProp = true)]
    simp only [List.reverse_nil, List.nil_append, List.append_nil]
    have hk2 : k < (applyOp (shrinkOp1 t sc) 0 states).length := by
      rw [applyOp_length]; exact hk
    have hok4 : ∀ j (hj : j < k), ∃ s2, shrinkOp3 t sc (0+j)
        ((applyOp (shrinkOp1 t sc) 0 states).get ⟨j, lt_trans hj hk2⟩) = .ok s2 := by
      intro j hj
      obtain ⟨s2, h2⟩ := hok3 j hj
      refine ⟨s2, ?_⟩
      rw [Nat.zero_add, ← getP_eq_get _ j (lt_trans hj hk2)]
      exact h2
    have hfail4 : shrinkOp3 t sc (0+k)
        ((applyOp (shrinkOp1 t sc) 0 states).get ⟨k, hk2⟩) = .error e := by
      rw [Nat.zero_add, ← getP_eq_get _ k hk2]
      exact hfail3
    have hfirst3 := phase_first_fail (shrinkOp3 t sc) (fun i => UndoA.addAcc i t)
      (fun i => Ev.removeAccepterEv i) (applyOp (shrinkOp1 t sc) 0 states) k []
      (((List.range' 0 states.length).map (fun i => UndoA.addPrep i t)).reverse)
      ((List.range' 0 states.length).map (fun i => Ev.removePreparerEv i)
        ++ [Ev.proposeIdentityEv (sc.r % states.length) zerokey])
      0 e hk2 hok4 hfail4
    rw [hfirst3]
    dsimp only
    refine ⟨rfl, (((List.range' 0 k).map (fun i => UndoA.addAcc i t)).reverse
        ++ ((List.range' 0 states.length).map (fun i => UndoA.addPrep i t)).reverse).map undoEv,
      ?_, mem_map_undoEv⟩
    simp [List.range_eq_range', List.append_assoc]

/-- Concrete run for `shrink_mirrored_first_error`: two proposers, an
injected transport failure on the second RemovePreparer; ShrinkCluster
returns that step's wrapped error and the trace is the two RemovePreparer
calls followed only by undo calls. -/
theorem shrink_mirrored_first_error_witness :
    (shrinkCluster 2 ⟨fun i => i = 1, false, fun _ => false, 0⟩
        [⟨[2], [2]⟩, ⟨[2], [2]⟩]).1
      = Out.err (.wrap "during shrink step 1 (remove preparer)" .transport)
    ∧ ∃ tail, (shrinkCluster 2 ⟨fun i => i = 1, false, fun _ => false, 0⟩
        [⟨[2], [2]⟩, ⟨[2], [2]⟩]).2.2
        = (List.range 2).map Ev.removePreparerEv ++ tail
      ∧ ∀ ev ∈ tail, isUndoEv ev = true := by
  have h := (shrink_mirrored_first_error 2 ⟨fun i => i = 1, false, fun _ => false, 0⟩
      [⟨[2], [2]⟩, ⟨[2], [2]⟩]).2.1 1 Err.transport (by decide)
    (by
      intro j hj
      have hj0 : j = 0 := by omega
      subst hj0
      exact ⟨⟨[], [2]⟩, rfl⟩)
    rfl
  exact h

/-- C6: a non-cancellation failure of the identity phase makes
GarbageCollect retry the whole procedure after a one-second back-off,
while an observed cancellation -- the identity read returning the canceled
error, or the context being done during the back-off -- makes it return
the cancellation error immediately, with no back-off and no retry. -/
theorem gc_retry_and_cancellation (np : Nat) (key : String) (o : GCOracle) (fuel : Nat)
    (hnp : ¬ np = 0) :
    (o.reads 0 = .canceledRead →
      gcRun np key o (fuel+1) = (.err .canceled, [.fullIdentityReadEv (o.r 0 % np) key]))
    ∧ (∀ e, o.reads 0 = .failedRead e → o.ctxDone 0 = true →
      gcRun np key o (fuel+1) = (.err o.ctxErr, [.fullIdentityReadEv (o.r 0 % np) key]))
    ∧ (∀ e, o.reads 0 = .failedRead e → o.ctxDone 0 = false →
      gcRun np key o (fuel+1)
        = ((gcRun np key (shiftO o) fuel).1,
           .fullIdentityReadEv (o.r 0 % np) key :: Ev.backoffEv
             :: (gcRun np key (shiftO o) fuel).2)) := by
  refine ⟨?_, ?_, ?_⟩
  · intro h
    simp [gcRun, hnp, h]
  · intro e h hd
    simp [gcRun, hnp, h, hd]
  · intro e h hd
    simp [gcRun, hnp, h, hd]

/-- Concrete runs for `gc_retry_and_cancellation`: one proposer; a
canceled read returns at once, a failed read with the context done during
back-off returns ctx.Err() at once, and a failed read otherwise backs off
and continues with the next iteration. -/
theorem gc_retry_and_cancellation_witness :
    gcRun 1 "k" ⟨fun _ => .canceledRead, fun _ => false, Err.canceled, fun _ => 0⟩ 3
      = (.err .canceled, [.fullIdentityReadEv 0 "k"])
    ∧ gcRun 1 "k" ⟨fun _ => .failedRead .transport, fun _ => true, Err.deadline, fun _ => 0⟩ 3
      = (.err .deadline, [.fullIdentityReadEv 0 "k"])
    ∧ gcRun 1 "k" ⟨fun _ => .failedRead .transport, fun _ => false, Err.canceled, fun _ => 0⟩ 3
      = ((gcRun 1 "k"
            (shiftO ⟨fun _ => .failedRead .transport, fun _ => false, Err.canceled, fun _ => 0⟩) 2).1,
         .fullIdentityReadEv 0 "k" :: Ev.backoffEv
           :: (gcRun 1 "k"
            (shiftO ⟨fun _ => .failedRead .transport, fun _ => false, Err.canceled, fun _ => 0⟩) 2).2) :=
  ⟨(gc_retry_and_cancellation 1 "k" ⟨fun _ => .canceledRead, fun _ => false, Err.canceled,
      fun _ => 0⟩ 2 (by decide)).1 rfl,
   (gc_retry_and_cancellation 1 "k" ⟨fun _ => .failedRead .transport, fun _ => true, Err.deadline,
      fun _ => 0⟩ 2 (by decide)).2.1 .transport rfl rfl,
   (gc_retry_and_cancellation 1 "k" ⟨fun _ => .failedRead .transport, fun _ => false, Err.canceled,
      fun _ => 0⟩ 2 (by decide)).2.2 .transport rfl rfl⟩

/-- C10: with an empty proposer list GrowCluster, ShrinkCluster and
GarbageCollect all reach rand.Intn(0), which panics, so none of them can
return normally: a non-empty proposer list is an unstated precondition. -/
theorem empty_proposers_panic (t : Nat) (sc : Sched) (key : String) (o : GCOracle) (fuel : Nat) :
    (growCluster t sc []).1 = .panic
    ∧ (shrinkCluster t sc []).1 = .panic
    ∧ (gcRun 0 key o (fuel+1)).1 = .panic := by
  refine ⟨rfl, rfl, ?_⟩
  simp [gcRun]

/-- C1 (the code omits the claimed calls): with one proposer whose
FullIdentityRead succeeds, GarbageCollect returns nil directly after the
identity phase; its trace holds no FastForward and no RemoveIfEmpty call,
because phases (b)-(d) are an unimplemented TODO in the source body. -/
theorem gc_nil_without_fastforward_or_remove :
    gcRun 1 "k" ⟨fun _ => .okRead, fun _ => false, Err.canceled, fun _ => 0⟩ 1
      = (.ok, [.fullIdentityReadEv 0 "k"])
    ∧ ∀ ev ∈ (gcRun 1 "k" ⟨fun _ => .okRead, fun _ => false, Err.canceled, fun _ => 0⟩ 1).2,
        (∀ p c, ev ≠ .fastForwardEv p c) ∧ ∀ a s, ev ≠ .removeIfEmptyEv a s := by
  refine ⟨rfl, ?_⟩
  intro ev hev
  have htr : (gcRun 1 "k" ⟨fun _ => .okRead, fun _ => false, Err.canceled, fun _ => 0⟩ 1).2
      = [Ev.fullIdentityReadEv 0 "k"] := rfl
  rw [htr] at hev
  simp only [List.mem_singleton] at hev
  subst hev
  exact ⟨fun p c h => Ev.noConfusion h, fun a s h => Ev.noConfusion h⟩

/-- The running maximum gcBroadcastIdentity accumulates over replies. -/
def runMax (tomb : Nat) : List PropReply → Nat
  | [] => tomb
  | rep :: rest => runMax (if rep.counter > tomb then rep.counter else tomb) rest

/-- Whether a reply makes the identity broadcast fail, and with which
error: a Propose error is returned as is, a non-empty state yields
ErrNotEmpty. -/
def replyFail (rep : PropReply) : Option Err :=
  match rep.err with
  | some e => some e
  | none => if rep.state.length ≠ 0 then some .notEmpty else none

theorem runMax_le (tomb : Nat) : ∀ rs : List PropReply, tomb ≤ runMax tomb rs := by
  intro rs
  induction rs generalizing tomb with
  | nil => exact Nat.le_refl tomb
  | cons rep rest ih =>
    refine Nat.le_trans ?_ (ih (if rep.counter > tomb then rep.counter else tomb))
    by_cases hc : rep.counter > tomb
    · rw [if_pos hc]; omega
    · rw [if_neg hc]

theorem runMax_mem_le (tomb : Nat) : ∀ (rs : List PropReply) (rep : PropReply), rep ∈ rs →
    rep.counter ≤ runMax tomb rs := by
  intro rs
  induction rs generalizing tomb with
  | nil => intro rep h; simp at h
  | cons a rest ih =>
    intro rep h
    rcases List.mem_cons.mp h with h | h
    · subst h
      rw [runMax]
      refine Nat.le_trans ?_ (runMax_le _ rest)
      by_cases hc : rep.counter > tomb
      · rw [if_pos hc]
      · rw [if_neg hc]; omega
    · exact ih _ rep h

theorem runMax_attained (tomb : Nat) : ∀ rs : List PropReply,
    runMax tomb rs = tomb ∨ ∃ rep ∈ rs, rep.counter = runMax tomb rs := by
  intro rs
  induction rs generalizing tomb with
  | nil => exact Or.inl rfl
  | cons a rest ih =>
    rw [runMax]
    rcases ih (if a.counter > tomb then a.counter else tomb) with h | h
    · by_cases hc : a.counter > tomb
      · refine Or.inr ⟨a, List.mem_cons_self a rest, ?_⟩
        rw [h, if_pos hc]
      · rw [h, if_neg hc]
        exact Or.inl rfl
    · obtain ⟨rep, hmem, hcnt⟩ := h
      exact Or.inr ⟨rep, List.mem_cons_of_mem a hmem, hcnt⟩

theorem gcBroadcastIdentityAux_ok :
    ∀ (rs : List PropReply) (tomb n : Nat), (∀ r ∈ rs, r.err = none ∧ r.state = []) →
      gcBroadcastIdentityAux rs tomb n = (.ok (runMax tomb rs), n + rs.length) := by
  intro rs
  induction rs with
  | nil => intro tomb n h; simp [gcBroadcastIdentityAux, runMax]
  | cons rep rest ih =>
    intro tomb n h
    obtain ⟨herr, hstate⟩ := h rep (List.mem_cons_self rep rest)
    rw [gcBroadcastIdentityAux, herr]
    have hlen : ¬ rep.state.length ≠ 0 := by simp [hstate]
    rw [if_neg hlen]
    rw [ih _ (n+1) (fun r hr => h r (List.mem_cons_of_mem rep hr))]
    simp [runMax]
    omega

theorem gcBroadcastIdentityAux_fail (e : Err) :
    ∀ (pre : List PropReply) (rep : PropReply) (post : List PropReply) (tomb n : Nat),
      (∀ r ∈ pre, r.err = none ∧ r.state = []) → replyFail rep = some e →
      gcBroadcastIdentityAux (pre ++ rep :: post) tomb n = (.error e, n + pre.length + 1) := by
  intro pre
  induction pre with
  | nil =>
    intro rep post tomb n hg hf
    rw [List.nil_append, gcBroadcastIdentityAux]
    unfold replyFail at hf
    cases hrep : rep.err with
    | some e2 =>
      rw [hrep] at hf
      injection hf with hf
      subst hf
      simp
    | none =>
      rw [hrep] at hf
      by_cases hs : rep.state.length ≠ 0
      · rw [if_pos hs] at hf
        injection hf with hf
        subst hf
        rw [if_pos hs]
        simp
      · rw [if_neg hs] at hf
        cases hf
  | cons a rest ih =>
    intro rep post tomb n hg hf
    obtain ⟨herr, hstate⟩ := hg a (List.mem_cons_self a rest)
    rw [List.cons_append, gcBroadcastIdentityAux, herr]
    have hlen : ¬ a.state.length ≠ 0 := by simp [hstate]
    rw [if_neg hlen]
    rw [ih rep post _ (n+1) (fun r hr => hg r (List.mem_cons_of_mem a hr)) hf]
    simp
    omega

/-- C3: gcBroadcastIdentity proposes the identity function to every
proposer and verifies the replies (quantified here over every channel
arrival order): when every reply is error-free with an empty state it
returns the maximum returned ballot counter as the tombstone with no
error; when the first failing arrival is a Propose error it returns that
error; when the first failing arrival is a non-empty success it returns
the NotEmpty error. -/
theorem gc_broadcast_identity_spec (rs : List PropReply) :
    ((∀ r ∈ rs, r.err = none ∧ r.state = []) →
      ∃ m, gcBroadcastIdentity rs = .ok m
        ∧ (∀ r ∈ rs, r.counter ≤ m)
        ∧ (m = 0 ∨ ∃ r ∈ rs, r.counter = m))
    ∧ (∀ pre rep post, rs = pre ++ rep :: post →
        (∀ r ∈ pre, r.err = none ∧ r.state = []) →
        ∀ e, rep.err = some e → gcBroadcastIdentity rs = .error e)
    ∧ (∀ pre rep post, rs = pre ++ rep :: post →
        (∀ r ∈ pre, r.err = none ∧ r.state = []) →
        rep.err = none → rep.state ≠ [] → gcBroadcastIdentity rs = .error .notEmpty) := by
  refine ⟨?_, ?_, ?_⟩
  · intro h
    refine ⟨runMax 0 rs, ?_, ?_, ?_⟩
    · unfold gcBroadcastIdentity
      rw [gcBroadcastIdentityAux_ok rs 0 0 h]
    · intro r hr
      exact runMax_mem_le 0 rs r hr
    · rcases runMax_attained 0 rs with h2 | h2
      · exact Or.inl h2
      · exact Or.inr h2
  · intro pre rep post hsplit hg e herr
    subst hsplit
    unfold gcBroadcastIdentity
    rw [gcBroadcastIdentityAux_fail e pre rep post 0 0 hg (by rw [replyFail, herr])]
  · intro pre rep post hsplit hg herr hne
    subst hsplit
    unfold gcBroadcastIdentity
    have hlen : rep.state.length ≠ 0 := fun hc => hne (List.length_eq_zero.mp hc)
    rw [gcBroadcastIdentityAux_fail .notEmpty pre rep post 0 0 hg
      (by rw [replyFail, herr]; rw [if_pos hlen])]

/-- Concrete runs for `gc_broadcast_identity_spec`: an all-empty batch
returns the maximum counter; a batch whose first arrival errs returns
that error; a batch whose second arrival is non-empty returns NotEmpty. -/
theorem gc_broadcast_identity_spec_witness :
    (∃ m, gcBroadcastIdentity [⟨[], 3, none⟩, ⟨[], 5, none⟩] = .ok m
      ∧ (∀ r ∈ ([⟨[], 3, none⟩, ⟨[], 5, none⟩] : List PropReply), r.counter ≤ m)
      ∧ (m = 0 ∨ ∃ r ∈ ([⟨[], 3, none⟩, ⟨[], 5, none⟩] : List PropReply), r.counter = m))
    ∧ gcBroadcastIdentity [⟨[], 0, some .transport⟩, ⟨[], 7, none⟩] = .error .transport
    ∧ gcBroadcastIdentity [⟨[], 1, none⟩, ⟨[9], 2, none⟩, ⟨[], 3, none⟩] = .error .notEmpty :=
  ⟨(gc_broadcast_identity_spec [⟨[], 3, none⟩, ⟨[], 5, none⟩]).1 (by decide),
   (gc_broadcast_identity_spec [⟨[], 0, some .transport⟩, ⟨[], 7, none⟩]).2.1
     [] ⟨[], 0, some .transport⟩ [⟨[], 7, none⟩] rfl (by simp) .transport rfl,
   (gc_broadcast_identity_spec [⟨[], 1, none⟩, ⟨[9], 2, none⟩, ⟨[], 3, none⟩]).2.2
     [⟨[], 1, none⟩] ⟨[9], 2, none⟩ [⟨[], 3, none⟩] rfl (by decide) rfl (by decide)⟩

/-- C9, counterexample: with two proposers whose first arriving identity
reply is an error, gcBroadcastIdentity takes only one of the two replies
off its channel before returning, so it does not collect every reply when
an early reply is an error. -/
theorem gc_broadcast_consumes_one_on_first_error :
    gcBroadcastIdentityReplies [⟨[], 0, some .transport⟩, ⟨[], 4, none⟩] = 1
    ∧ ([⟨[], 0, some .transport⟩, ⟨[], 4, none⟩] : List PropReply).length = 2 :=
  ⟨rfl, rfl⟩

theorem gcFastForwardAux_ok :
    ∀ (es : List (Option Err)) (n : Nat), (∀ x ∈ es, x = none) →
      gcFastForwardAux es n = (none, n + es.length) := by
  intro es
  induction es with
  | nil => intro n h; simp [gcFastForwardAux]
  | cons a rest ih =>
    intro n h
    have ha := h a (List.mem_cons_self a rest)
    subst ha
    rw [gcFastForwardAux, ih (n+1) (fun x hx => h x (List.mem_cons_of_mem _ hx))]
    simp
    omega

theorem gcFastForwardAux_fail (e : Err) :
    ∀ (pre post : List (Option Err)) (n : Nat), (∀ x ∈ pre, x = none) →
      gcFastForwardAux (pre ++ some e :: post) n = (some e, n + pre.length + 1) := by
  intro pre
  induction pre with
  | nil => intro post n h; simp [gcFastForwardAux]
  | cons a rest ih =>
    intro post n h
    have ha := h a (List.mem_cons_self a rest)
    subst ha
    rw [List.cons_append, gcFastForwardAux, ih post (n+1) (fun x hx => h x (List.mem_cons_of_mem _ hx))]
    simp
    omega

theorem gcRemoveIfEmptyAux_ok :
    ∀ (es : List (Option Err)) (n : Nat), (∀ x ∈ es, x = none) →
      gcRemoveIfEmptyAux es n = (none, n + es.length) := by
  intro es
  induction es with
  | nil => intro n h; simp [gcRemoveIfEmptyAux]
  | cons a rest ih =>
    intro n h
    have ha := h a (List.mem_cons_self a rest)
    subst ha
    rw [gcRemoveIfEmptyAux, ih (n+1) (fun x hx => h x (List.mem_cons_of_mem _ hx))]
    simp
    omega

theorem gcRemoveIfEmptyAux_fail (e : Err) :
    ∀ (pre post : List (Option Err)) (n : Nat), (∀ x ∈ pre, x = none) →
      gcRemoveIfEmptyAux (pre ++ some e :: post) n = (some e, n + pre.length + 1) := by
  intro pre
  induction pre with
  | nil => intro post n h; simp [gcRemoveIfEmptyAux]
  | cons a rest ih =>
    intro post n h
    have ha := h a (List.mem_cons_self a rest)
    subst ha
    rw [List.cons_append, gcRemoveIfEmptyAux,
      ih post (n+1) (fun x hx => h x (List.mem_cons_of_mem _ hx))]
    simp
    omega

/-- C9, amended: each broadcast helper spawns one task per target and
collects every reply only when no reply fails (for the identity broadcast:
no error and no non-empty state); on the first failing arrival it returns
at once, leaving the later replies uncollected -- leaked tasks are avoided
by the reply channel's capacity of one slot per worker, not by draining it. -/
theorem broadcast_helpers_reply_collection :
    (∀ rs : List PropReply, (∀ r ∈ rs, r.err = none ∧ r.state = []) →
      gcBroadcastIdentityReplies rs = rs.length)
    ∧ (∀ (pre : List PropReply) rep post, (∀ r ∈ pre, r.err = none ∧ r.state = []) →
        ∀ e, replyFail rep = some e →
        gcBroadcastIdentityReplies (pre ++ rep :: post) = pre.length + 1)
    ∧ (∀ es : List (Option Err), (∀ x ∈ es, x = none) → gcFastForwardReplies es = es.length)
    ∧ (∀ (pre post : List (Option Err)) e, (∀ x ∈ pre, x = none) →
        gcFastForwardReplies (pre ++ some e :: post) = pre.length + 1)
    ∧ (∀ es : List (Option Err), (∀ x ∈ es, x = none) → gcRemoveIfEmptyReplies es = es.length)
    ∧ (∀ (pre post : List (Option Err)) e, (∀ x ∈ pre, x = none) →
        gcRemoveIfEmptyReplies (pre ++ some e :: post) = pre.length + 1) := by
  refine ⟨?_, ?_, ?_, ?_, ?_, ?_⟩
  · intro rs h
    unfold gcBroadcastIdentityReplies
    rw [gcBroadcastIdentityAux_ok rs 0 0 h]
    simp
  · intro pre rep post h e hf
    unfold gcBroadcastIdentityReplies
    rw [gcBroadcastIdentityAux_fail e pre rep post 0 0 h hf]
    simp
  · intro es h
    unfold gcFastForwardReplies
    rw [gcFastForwardAux_ok es 0 h]
    simp
  · intro pre post e h
    unfold gcFastForwardReplies
    rw [gcFastForwardAux_fail e pre post 0 h]
    simp
  · intro es h
    unfold gcRemoveIfEmptyReplies
    rw [gcRemoveIfEmptyAux_ok es 0 h]
    simp
  · intro pre post e h
    unfold gcRemoveIfEmptyReplies
    rw [gcRemoveIfEmptyAux_fail e pre post 0 h]
    simp

/-- Concrete runs for `broadcast_helpers_reply_collection`: each helper,
on a batch whose failing reply arrives with one good reply before and one
after (or at the tail), consumes exactly the replies up to the failure. -/
theorem broadcast_helpers_reply_collection_witness :
    gcBroadcastIdentityReplies [⟨[], 2, none⟩, ⟨[], 0, some .transport⟩, ⟨[], 4, none⟩] = 1 + 1
    ∧ gcFastForwardReplies [none, some .transport, none] = 1 + 1
    ∧ gcRemoveIfEmptyReplies [none, some .canceled] = 1 + 1 :=
  ⟨broadcast_helpers_reply_collection.2.1 [⟨[], 2, none⟩] ⟨[], 0, some .transport⟩
      [⟨[], 4, none⟩] (by decide) .transport (by decide),
   broadcast_helpers_reply_collection.2.2.2.1 [none] [none] .transport (by decide),
   broadcast_helpers_reply_collection.2.2.2.2.2 [none] [] .canceled (by decide)⟩

/-- C7 (the code deviates from the claim in one branch): with bind host
0.0.0.0 and an empty advertise host, a GetPrivateIP result of no private
IP without an error (empty string, nil error) makes calculateAdvertiseIP
wrap a nil error, so it returns neither an IP nor an error; when a private
IP is found it is returned, and when GetPrivateIP itself fails the wrapped
failure is returned. -/
theorem advertise_no_private_ip_returns_nil_error :
    calculateAdvertiseIP ⟨fun _ => none, fun _ => ([], none), ("", none)⟩ "0.0.0.0" ""
      = (none, none)
    ∧ calculateAdvertiseIP
        ⟨fun sIp => if sIp = "10.0.0.1" then some ⟨[10, 0, 0, 1]⟩ else none,
         fun _ => ([], none), ("10.0.0.1", none)⟩ "0.0.0.0" ""
      = (some ⟨[10, 0, 0, 1]⟩, none)
    ∧ calculateAdvertiseIP ⟨fun _ => none, fun _ => ([], none), ("", some (.env "getifaddrs"))⟩
        "0.0.0.0" ""
      = (none, some (.wrapped "failed to deduce private IP from all-zeroes bind address"
          (.env "getifaddrs"))) :=
  ⟨rfl, rfl, rfl⟩

/-- C8: a non-empty advertise host that parses as an IP is returned
without error, canonicalized to its 4-byte form when To4 applies; in
particular advertise host 1.2.3.4 (which net.ParseIP yields in 16-byte
IPv4-in-IPv6 form) with bind host 0.0.0.0 yields the 4-byte IP 1.2.3.4. -/
theorem advertise_host_ip_returned (env : NetEnv) (bindHost advertiseHost : String) (ip : IP)
    (hne : advertiseHost ≠ "") (hp : env.parseIP advertiseHost = some ip) :
    calculateAdvertiseIP env bindHost advertiseHost = (some (canon ip), none)
    ∧ (env.parseIP "1.2.3.4" = some ⟨v4Header ++ [1, 2, 3, 4]⟩ →
        calculateAdvertiseIP env "0.0.0.0" "1.2.3.4" = (some ⟨[1, 2, 3, 4]⟩, none)) := by
  constructor
  · unfold calculateAdvertiseIP
    rw [if_pos hne, hp]
  · intro hp2
    unfold calculateAdvertiseIP
    rw [if_pos (by decide : ("1.2.3.4" : String) ≠ ""), hp2]
    rfl

/-- Concrete run for `advertise_host_ip_returned`: an environment whose
ParseIP maps 1.2.3.4 to its 16-byte form; the result is the 4-byte 1.2.3.4
with no error. -/
theorem advertise_host_ip_returned_witness :
    calculateAdvertiseIP
        ⟨fun sIp => if sIp = "1.2.3.4" then some ⟨v4Header ++ [1, 2, 3, 4]⟩ else none,
         fun _ => ([], none), ("", none)⟩ "0.0.0.0" "1.2.3.4"
      = (some (canon ⟨v4Header ++ [1, 2, 3, 4]⟩), none)
    ∧ calculateAdvertiseIP
        ⟨fun sIp => if sIp = "1.2.3.4" then some ⟨v4Header ++ [1, 2, 3, 4]⟩ else none,
         fun _ => ([], none), ("", none)⟩ "0.0.0.0" "1.2.3.4"
      = (some ⟨[1, 2, 3, 4]⟩, none) := by
  have h := advertise_host_ip_returned
    ⟨fun sIp => if sIp = "1.2.3.4" then some ⟨v4Header ++ [1, 2, 3, 4]⟩ else none,
     fun _ => ([], none), ("", none)⟩ "0.0.0.0" "1.2.3.4" ⟨v4Header ++ [1, 2, 3, 4]⟩
    (by decide) rfl
  exact ⟨h.1, h.2 rfl⟩

end CasPaxos
